import Mathlib

/-!
Verification of the vocalaa observability/metrics subsystem.

The client visualization (`ui/src/components/MCPAnalytics.tsx`) is embedded
directly from the TypeScript source.  The backend collector, adapter and
query surface (`app/core/observability.py`, `app/api/routes/metrics.py`)
are not present in the repository snapshot; they are modelled from the
specification, as marked in the doc comments below.
-/

namespace Vocalaa

/-! ## Client visualization (from `ui/src/components/MCPAnalytics.tsx`) -/

/-- One chart point produced by `processChartData`.  The date is modelled as
the number of whole days before "today" (`subDays(today, i)` in the source). -/
structure ChartDataPoint where
  daysAgo : Nat
  calls : Nat
  deriving Repr, DecidableEq

/-- Shape of the `/metrics/tools` response consumed by the chart
(interface `MetricsResponse` in the source). -/
structure MetricsResponse where
  period_hours : Nat
  total_calls : Nat
  unique_users : Nat
  deriving Repr, DecidableEq

/-- `processChartData` from `MCPAnalytics.tsx`: builds `ceil(hours/24)` points,
oldest day first, then distributes `total_calls` evenly: `floor(total/days)`
each, with the first `total % days` points receiving one extra call. -/
def processChartData (data : MetricsResponse) (hours : Nat) : List ChartDataPoint :=
  let days := (hours + 23) / 24
  let callsPerDay := data.total_calls / days
  let remainder := data.total_calls % days
  (List.range days).map (fun idx =>
    { daysAgo := days - 1 - idx
      calls := callsPerDay + (if idx < remainder then 1 else 0) })

/-- React component state touched by `fetchAnalytics`. -/
structure AnalyticsState where
  loading : Bool
  chartData : List ChartDataPoint
  totalCalls : Nat
  error : Option String
  deriving Repr, DecidableEq

/-- Possible outcomes of the `fetch` call to the metrics endpoint. -/
inductive FetchOutcome where
  | ok : MetricsResponse → FetchOutcome
  | httpError : FetchOutcome
  | networkError : FetchOutcome
  deriving Repr, DecidableEq

/-- `fetchAnalytics` from `MCPAnalytics.tsx`.  The browser `localStorage`
token is `token`, the network is the oracle `net` (only consulted when a
request is actually issued), and the returned `Bool` records whether the
metrics endpoint was contacted.  Mirrors the source: `setLoading(true)`,
`setError(null)`, early return with error `"Not authenticated"` when the
token is absent, otherwise fetch, process, and `setLoading(false)` in
`finally`. -/
def fetchAnalytics (token : Option String) (net : FetchOutcome) (timeRange : Nat)
    (s : AnalyticsState) : AnalyticsState × Bool :=
  let s1 : AnalyticsState := { s with loading := true, error := none }
  match token with
  | none =>
      ({ s1 with error := some "Not authenticated", loading := false }, false)
  | some _ =>
      match net with
      | .ok data =>
          ({ s1 with
              chartData := processChartData data timeRange
              totalCalls := data.total_calls
              loading := false }, true)
      | .httpError =>
          ({ s1 with error := some "Failed to load analytics", loading := false }, true)
      | .networkError =>
          ({ s1 with error := some "Failed to load analytics", loading := false }, true)

/-! ## Collector data model (modelled from the spec, §3)

The backend module `app/core/observability.py` is not part of the
repository snapshot (only its tests and documentation are), so the
collector, the instrumentation adapter and the query surface are
modelled from the specification.  Timestamps and window widths are
integers in one shared abstract time unit. -/

/-- Modelled from the spec: `ToolCallEvent` (§3) — one record per tool
invocation; `app/core/observability.py` is missing from the snapshot.
`duration_ms` is a `Nat`, reflecting the spec's non-negativity. -/
structure ToolCallEvent where
  tool_name : String
  user_id : Option String
  request_id : String
  started_at : Int
  duration_ms : Nat
  success : Bool
  error_message : Option String
  deriving Repr, DecidableEq

/-- Modelled from the spec: `PerformanceSample` (§3) — timing record for a
named operation, with no success/error fields. -/
structure PerformanceSample where
  operation_name : String
  started_at : Int
  duration_ms : Nat
  metadata : Option String
  deriving Repr, DecidableEq

/-- Modelled from the spec: `MetricsCollector` state (§3) — two ordered
sequences, insertion order = chronological order; aggregates are always
recomputed from the sequences, never cached. -/
structure MetricsCollector where
  tool_calls : List ToolCallEvent
  performance : List PerformanceSample
  deriving Repr, DecidableEq

/-- The freshly constructed collector: both sequences empty. -/
def emptyCollector : MetricsCollector := { tool_calls := [], performance := [] }

/-- Modelled from the spec: `record_tool_call` (§4.1) — appends one event
to the tool-call sequence; always succeeds. -/
def record_tool_call (c : MetricsCollector) (e : ToolCallEvent) : MetricsCollector :=
  { c with tool_calls := c.tool_calls ++ [e] }

/-- Modelled from the spec: `record_performance` (§4.1) — appends one
sample to the performance sequence; always succeeds. -/
def record_performance (c : MetricsCollector) (p : PerformanceSample) : MetricsCollector :=
  { c with performance := c.performance ++ [p] }

/-- Events inside the trailing window: `started_at >= now - hours` (§4.1). -/
def windowEvents (c : MetricsCollector) (now hours : Int) : List ToolCallEvent :=
  c.tool_calls.filter (fun e => now - hours ≤ e.started_at)

/-- Performance samples inside the trailing window. -/
def windowSamples (c : MetricsCollector) (now hours : Int) : List PerformanceSample :=
  c.performance.filter (fun p => now - hours ≤ p.started_at)

/-! ## Aggregation queries (modelled from the spec, §4.1) -/

/-- Per-tool aggregate returned by `get_tool_statistics` (§4.1). -/
structure ToolStats where
  total_calls : Nat
  successful_calls : Nat
  failed_calls : Nat
  avg_duration_ms : ℚ
  deriving Repr, DecidableEq

/-- Result shape of `get_tool_statistics`, with the echoed `period_hours`
(§6). -/
structure ToolStatisticsResult where
  period_hours : Int
  total_calls : Nat
  per_tool : List (String × ToolStats)
  deriving Repr, DecidableEq

/-- Average of a duration list, defined as 0 over zero calls (§4.1). -/
def avgDuration (ds : List Nat) : ℚ :=
  if ds.length = 0 then 0 else (ds.map (fun d => (d : ℚ))).sum / ds.length

/-- Aggregate for one tool over a list of window events. -/
def toolStatsFor (evs : List ToolCallEvent) (t : String) : ToolStats :=
  let tevs := evs.filter (fun e => e.tool_name == t)
  { total_calls := tevs.length
    successful_calls := (tevs.filter (fun e => e.success)).length
    failed_calls := (tevs.filter (fun e => !e.success)).length
    avg_duration_ms := avgDuration (tevs.map ToolCallEvent.duration_ms) }

/-- The tool-statistics aggregate over a list of window events. -/
def toolStatisticsOf (evs : List ToolCallEvent) (hours : Int) : ToolStatisticsResult :=
  { period_hours := hours
    total_calls := evs.length
    per_tool := ((evs.map ToolCallEvent.tool_name).dedup).map
      (fun t => (t, toolStatsFor evs t)) }

/-- Modelled from the spec: `get_tool_statistics(hours)` (§4.1) — window =
events with `started_at >= now - hours`; `hours <= 0` is a validation
failure signaled to the caller. -/
def get_tool_statistics (c : MetricsCollector) (now hours : Int) :
    Except String ToolStatisticsResult :=
  if hours ≤ 0 then .error "ValidationError: hours must be positive"
  else .ok (toolStatisticsOf (windowEvents c now hours) hours)

/-- Per-user aggregate returned by `get_user_statistics` (§4.1). -/
structure UserStats where
  total_calls : Nat
  tools_used : List String
  deriving Repr, DecidableEq

/-- Result shape of `get_user_statistics` (§4.1). -/
structure UserStatisticsResult where
  period_hours : Int
  unique_users : Nat
  per_user : List (String × UserStats)
  deriving Repr, DecidableEq

/-- The user-statistics aggregate over a list of window events. -/
def userStatisticsOf (evs : List ToolCallEvent) (hours : Int) : UserStatisticsResult :=
  let users := (evs.filterMap ToolCallEvent.user_id).dedup
  { period_hours := hours
    unique_users := users.length
    per_user := users.map (fun u =>
      let uevs := evs.filter (fun e => e.user_id == some u)
      (u, { total_calls := uevs.length
            tools_used := (uevs.map ToolCallEvent.tool_name).dedup })) }

/-- Modelled from the spec: `get_user_statistics(hours)` (§4.1) — anonymous
calls (`user_id` null) are excluded from `unique_users` and `per_user`. -/
def get_user_statistics (c : MetricsCollector) (now hours : Int) :
    Except String UserStatisticsResult :=
  if hours ≤ 0 then .error "ValidationError: hours must be positive"
  else .ok (userStatisticsOf (windowEvents c now hours) hours)

/-- Per-operation aggregate returned by `get_performance_summary` (§4.1). -/
structure OperationStats where
  count : Nat
  avg_duration_ms : ℚ
  min_duration_ms : Nat
  max_duration_ms : Nat
  deriving Repr, DecidableEq

/-- Result shape of `get_performance_summary` (§4.1). -/
structure PerformanceSummaryResult where
  period_hours : Int
  per_operation : List (String × OperationStats)
  deriving Repr, DecidableEq

/-- The performance aggregate over a list of window samples. -/
def performanceSummaryOf (ps : List PerformanceSample) (hours : Int) :
    PerformanceSummaryResult :=
  let ops := (ps.map PerformanceSample.operation_name).dedup
  { period_hours := hours
    per_operation := ops.map (fun o =>
      let ods := (ps.filter (fun p => p.operation_name == o)).map
        PerformanceSample.duration_ms
      (o, { count := ods.length
            avg_duration_ms := avgDuration ods
            min_duration_ms := ods.foldr Nat.min (ods.headD 0)
            max_duration_ms := ods.foldr Nat.max 0 })) }

/-- Modelled from the spec: `get_performance_summary(hours)` (§4.1). -/
def get_performance_summary (c : MetricsCollector) (now hours : Int) :
    Except String PerformanceSummaryResult :=
  if hours ≤ 0 then .error "ValidationError: hours must be positive"
  else .ok (performanceSummaryOf (windowSamples c now hours) hours)

/-- Fixed bound on the number of sampled error messages per tool (§4.1,
"N is a fixed small bound (e.g., 5)"). -/
def N_SAMPLES : Nat := 5

/-- Per-tool error aggregate returned by `get_error_summary` (§4.1). -/
structure ErrorToolStats where
  count : Nat
  sample_messages : List String
  deriving Repr, DecidableEq

/-- Result shape of `get_error_summary` (§4.1). -/
structure ErrorSummaryResult where
  period_hours : Int
  total_errors : Nat
  per_tool : List (String × ErrorToolStats)
  deriving Repr, DecidableEq

/-- Error messages of the failed window events of one tool, in
chronological order (insertion order = chronological order, §3). -/
def errorMessagesFor (evs : List ToolCallEvent) (t : String) : List String :=
  (evs.filter (fun e => e.tool_name == t && !e.success)).filterMap
    ToolCallEvent.error_message

/-- Remove later duplicates: `dedupKeepFirstAux seen l` keeps the first
occurrence of each element of `l`, in order, skipping elements of
`seen`. -/
def dedupKeepFirstAux (seen : List String) : List String → List String
  | [] => []
  | m :: rest =>
      if m ∈ seen then dedupKeepFirstAux seen rest
      else m :: dedupKeepFirstAux (m :: seen) rest

/-- Remove later duplicates, keeping the first occurrence of each element
in its original position (unlike `List.dedup`, which keeps the last). -/
def dedupKeepFirst (msgs : List String) : List String := dedupKeepFirstAux [] msgs

/-- Index of the first occurrence of `a` in the list (the list's length
when `a` is absent). -/
def firstIdx : List String → String → Nat
  | [], _ => 0
  | b :: l, a => if b = a then 0 else firstIdx l a + 1

/-- Recency rank of a message in a chronological list: the distance from
the end of the list back to the message's most recent occurrence — rank 0
is the very latest message, a larger rank is older. -/
def recencyRank (ms : List String) (a : String) : Nat := firstIdx ms.reverse a

/-- Modelled from the spec: the sampling rule of §4.1 — up to `N_SAMPLES`
most recent distinct messages, newest first.  Reversing the chronological
list puts it newest first, `dedupKeepFirst` then keeps each message's
first occurrence in that order (its most recent chronological
occurrence), and `take` truncates to the bound, dropping only the
oldest. -/
def sampleMessages (msgs : List String) : List String :=
  (dedupKeepFirst msgs.reverse).take N_SAMPLES

/-- The error aggregate over a list of window events. -/
def errorSummaryOf (evs : List ToolCallEvent) (hours : Int) : ErrorSummaryResult :=
  let errs := evs.filter (fun e => !e.success)
  let tools := (errs.map ToolCallEvent.tool_name).dedup
  { period_hours := hours
    total_errors := errs.length
    per_tool := tools.map (fun t =>
      (t, { count := (errs.filter (fun e => e.tool_name == t)).length
            sample_messages := sampleMessages (errorMessagesFor evs t) })) }

/-- Modelled from the spec: `get_error_summary(hours)` (§4.1). -/
def get_error_summary (c : MetricsCollector) (now hours : Int) :
    Except String ErrorSummaryResult :=
  if hours ≤ 0 then .error "ValidationError: hours must be positive"
  else .ok (errorSummaryOf (windowEvents c now hours) hours)

/-- Modelled from the spec: `clear_old_metrics(hours)` (§4.1) — removes
events with `started_at < now - hours` from both sequences, compacting in
place, and returns the number of removed records. -/
def clear_old_metrics (c : MetricsCollector) (now hours : Int) :
    MetricsCollector × Nat :=
  let keepCalls := c.tool_calls.filter (fun e => now - hours ≤ e.started_at)
  let keepPerf := c.performance.filter (fun p => now - hours ≤ p.started_at)
  ({ tool_calls := keepCalls, performance := keepPerf },
   (c.tool_calls.length - keepCalls.length) +
     (c.performance.length - keepPerf.length))

/-! ## Query surface (modelled from the spec, §4.3 and §7) -/

/-- Modelled from the spec: the error taxonomy visible at the query
surface (§7) — validation failures and authorization failures. -/
inductive QueryError where
  | validation : QueryError
  | authorization : QueryError
  deriving Repr, DecidableEq

/-- Default window when the `hours` query parameter is absent (§4.3). -/
def DEFAULT_HOURS : Int := 24

/-- Resolve the optional `hours` query parameter to a window (§4.3). -/
def resolveHours (hours : Option Int) : Int := hours.getD DEFAULT_HOURS

/-- Modelled from the spec: the `tools(hours)` endpoint (§4.3) — the
authorization check runs before any aggregate computation (§7). -/
def tools_endpoint (auth : Bool) (c : MetricsCollector) (now : Int)
    (hours : Option Int) : Except QueryError ToolStatisticsResult :=
  if auth then
    (get_tool_statistics c now (resolveHours hours)).mapError fun _ => .validation
  else .error .authorization

/-- Modelled from the spec: the `users(hours)` endpoint (§4.3). -/
def users_endpoint (auth : Bool) (c : MetricsCollector) (now : Int)
    (hours : Option Int) : Except QueryError UserStatisticsResult :=
  if auth then
    (get_user_statistics c now (resolveHours hours)).mapError fun _ => .validation
  else .error .authorization

/-- Modelled from the spec: the `performance(hours)` endpoint (§4.3). -/
def performance_endpoint (auth : Bool) (c : MetricsCollector) (now : Int)
    (hours : Option Int) : Except QueryError PerformanceSummaryResult :=
  if auth then
    (get_performance_summary c now (resolveHours hours)).mapError fun _ => .validation
  else .error .authorization

/-- Modelled from the spec: the `errors(hours)` endpoint (§4.3). -/
def errors_endpoint (auth : Bool) (c : MetricsCollector) (now : Int)
    (hours : Option Int) : Except QueryError ErrorSummaryResult :=
  if auth then
    (get_error_summary c now (resolveHours hours)).mapError fun _ => .validation
  else .error .authorization

/-- Result shape of the `dashboard(hours)` endpoint: union of the four
aggregates (§4.3). -/
structure DashboardResult where
  tools : ToolStatisticsResult
  users : UserStatisticsResult
  performance : PerformanceSummaryResult
  errors : ErrorSummaryResult
  deriving Repr, DecidableEq

/-- Modelled from the spec: the `dashboard(hours)` endpoint (§4.3). -/
def dashboard_endpoint (auth : Bool) (c : MetricsCollector) (now : Int)
    (hours : Option Int) : Except QueryError DashboardResult :=
  if auth then
    let h := resolveHours hours
    match get_tool_statistics c now h, get_user_statistics c now h,
        get_performance_summary c now h, get_error_summary c now h with
    | .ok t, .ok u, .ok p, .ok e => .ok { tools := t, users := u, performance := p, errors := e }
    | _, _, _, _ => .error .validation
  else .error .authorization

/-- Modelled from the spec: the administrative `clear` endpoint (§4.3) —
returns the possibly-mutated collector and the removed count; an
unauthenticated call fails before touching the collector state. -/
def clear_endpoint (auth : Bool) (c : MetricsCollector) (now hours : Int) :
    MetricsCollector × Except QueryError Nat :=
  if auth then
    let r := clear_old_metrics c now hours
    (r.1, .ok r.2)
  else (c, .error .authorization)

/-! ## Instrumentation adapter (modelled from the spec, §4.2 and §5) -/

/-- How the wrapped operation terminates: normal return, raised/signaled
failure (already stringified), or early cancellation (§4.2, §5). -/
inductive OpOutcome (α : Type) where
  | success : α → OpOutcome α
  | failure : String → OpOutcome α
  | cancelled : OpOutcome α
  deriving Repr, DecidableEq

/-- Modelled from the spec: the instrumentation adapter (§4.2) — records
exactly one `ToolCallEvent` on every exit path and passes the operation's
own outcome through unchanged; cancellation is recorded as a failure
(§5). -/
def instrumentToolCall {α : Type} (c : MetricsCollector) (tool_name : String)
    (user_id : Option String) (request_id : String) (started_at : Int)
    (duration_ms : Nat) (outcome : OpOutcome α) : MetricsCollector × OpOutcome α :=
  match outcome with
  | .success a =>
      (record_tool_call c
        { tool_name := tool_name, user_id := user_id, request_id := request_id
          started_at := started_at, duration_ms := duration_ms
          success := true, error_message := none }, .success a)
  | .failure msg =>
      (record_tool_call c
        { tool_name := tool_name, user_id := user_id, request_id := request_id
          started_at := started_at, duration_ms := duration_ms
          success := false, error_message := some msg }, .failure msg)
  | .cancelled =>
      (record_tool_call c
        { tool_name := tool_name, user_id := user_id, request_id := request_id
          started_at := started_at, duration_ms := duration_ms
          success := false, error_message := some "cancelled" }, .cancelled)

/-! ## The event invariant (§3) -/

/-- The spec's event invariant (§3): exactly one of
success with no message, or failure with a non-empty message. -/
def eventWellFormed (e : ToolCallEvent) : Bool :=
  match e.success, e.error_message with
  | true, none => true
  | false, some m => m != ""
  | _, _ => false

/-- One mutation of the collector: the two recording operations and the
cleanup operation — the only operations that touch the sequences (§3,
§4.1). -/
inductive CollectorOp where
  | record (e : ToolCallEvent)
  | recordPerf (p : PerformanceSample)
  | clear (now hours : Int)
  deriving Repr, DecidableEq

/-- Apply one mutation. -/
def applyOp (c : MetricsCollector) : CollectorOp → MetricsCollector
  | .record e => record_tool_call c e
  | .recordPerf p => record_performance c p
  | .clear now hours => (clear_old_metrics c now hours).1

/-- Run a history of mutations from the freshly constructed collector. -/
def applyOps (ops : List CollectorOp) : MetricsCollector :=
  ops.foldl applyOp emptyCollector

/-- A mutation respects the producer contract of §4.2: recorded events are
well-formed (success with no message, or failure with the non-empty
stringified failure). -/
def opWellFormed : CollectorOp → Bool
  | .record e => eventWellFormed e
  | .recordPerf _ => true
  | .clear _ _ => true

/-! ## Theorems -/

/-- Summing `q` plus an extra unit for the first `r` indices over
`range d`. -/
lemma sum_range_even_split (d q r : Nat) :
    ((List.range d).map (fun i => q + if i < r then 1 else 0)).sum
      = d * q + min r d := by
  induction d with
  | zero => simp
  | succ n ih =>
      rw [List.range_succ, List.map_append, List.sum_append, ih, Nat.succ_mul]
      by_cases h : n < r <;> simp [h] <;> omega

/-- Claim C1: for a metrics response with `total_calls = T` and positive
`hours = H`, `processChartData` produces exactly `ceil(H/24)` points
(written `(H+23)/24`, characterized by the two bracketing inequalities),
ordered oldest day first (`daysAgo` decreases as `(H+23)/24 - 1 - i`),
whose `calls` sum to `T`, each point getting `T / d` calls with the
earliest `T % d` points getting one extra. -/
theorem chart_even_distribution (data : MetricsResponse) (H : Nat) (hH : 0 < H) :
    (processChartData data H).length = (H + 23) / 24 ∧
    H ≤ 24 * ((H + 23) / 24) ∧ 24 * ((H + 23) / 24) < H + 24 ∧
    ((processChartData data H).map ChartDataPoint.calls).sum = data.total_calls ∧
    (∀ i, (hi : i < (processChartData data H).length) →
      ((processChartData data H).get ⟨i, hi⟩).calls
        = data.total_calls / ((H + 23) / 24)
          + (if i < data.total_calls % ((H + 23) / 24) then 1 else 0)) ∧
    (∀ i, (hi : i < (processChartData data H).length) →
      ((processChartData data H).get ⟨i, hi⟩).daysAgo = (H + 23) / 24 - 1 - i) := by
  have hd : 0 < (H + 23) / 24 := by omega
  refine ⟨by simp [processChartData], by omega, by omega, ?_, ?_, ?_⟩
  · have hmap : (processChartData data H).map ChartDataPoint.calls
        = (List.range ((H + 23) / 24)).map
            (fun i => data.total_calls / ((H + 23) / 24)
              + if i < data.total_calls % ((H + 23) / 24) then 1 else 0) := by
      simp [processChartData, List.map_map, Function.comp_def]
    rw [hmap, sum_range_even_split]
    have hmod := Nat.mod_lt data.total_calls hd
    have hdm := Nat.div_add_mod data.total_calls ((H + 23) / 24)
    omega
  · intro i hi
    simp [processChartData] at hi ⊢
  · intro i hi
    simp [processChartData] at hi ⊢

/-- Claim C1 witness: at `total_calls = 7`, `H = 30` the points' calls sum
back to 7. -/
theorem chart_even_distribution_witness :
    0 < 30 ∧
    ((processChartData { period_hours := 30, total_calls := 7, unique_users := 1 } 30).map
      ChartDataPoint.calls).sum
        = ({ period_hours := 30, total_calls := 7, unique_users := 1 } : MetricsResponse).total_calls :=
  ⟨by decide,
    (chart_even_distribution { period_hours := 30, total_calls := 7, unique_users := 1 } 30
      (by decide)).2.2.2.1⟩

/-- Claim C10: with no stored access token, `fetchAnalytics` issues no
request to the metrics endpoint, sets the error state to
`"Not authenticated"`, and leaves the chart data and total-calls state
unchanged. -/
theorem fetch_without_token (net : FetchOutcome) (timeRange : Nat) (s : AnalyticsState) :
    (fetchAnalytics none net timeRange s).2 = false ∧
    (fetchAnalytics none net timeRange s).1.error = some "Not authenticated" ∧
    (fetchAnalytics none net timeRange s).1.chartData = s.chartData ∧
    (fetchAnalytics none net timeRange s).1.totalCalls = s.totalCalls :=
  ⟨rfl, rfl, rfl, rfl⟩

/-- A positive window makes `get_tool_statistics` succeed with the
aggregate of the window events. -/
lemma get_tool_statistics_pos (c : MetricsCollector) (now : Int) {hours : Int}
    (h : 0 < hours) :
    get_tool_statistics c now hours
      = .ok (toolStatisticsOf (windowEvents c now hours) hours) := by
  simp [get_tool_statistics, not_le.mpr h]

/-- Widening the window can only add events. -/
lemma windowEvents_length_mono (c : MetricsCollector) (now : Int) {H1 H2 : Int}
    (h : H1 ≤ H2) :
    (windowEvents c now H1).length ≤ (windowEvents c now H2).length := by
  unfold windowEvents
  rw [← List.countP_eq_length_filter, ← List.countP_eq_length_filter]
  apply List.countP_mono_left
  intro e _ hp
  simp only [decide_eq_true_eq] at hp ⊢
  omega

/-- Claim C2: over a fixed event log, the `tools` query is monotone in the
window size: for `0 < H1 < H2` both queries succeed and the smaller
window reports at most as many total calls. -/
theorem tools_window_monotone (c : MetricsCollector) (now H1 H2 : Int)
    (h1 : 0 < H1) (h12 : H1 < H2) :
    ∃ r1 r2, tools_endpoint true c now (some H1) = .ok r1 ∧
      tools_endpoint true c now (some H2) = .ok r2 ∧
      r1.total_calls ≤ r2.total_calls := by
  have h2 : 0 < H2 := lt_trans h1 h12
  refine ⟨toolStatisticsOf (windowEvents c now H1) H1,
    toolStatisticsOf (windowEvents c now H2) H2, ?_, ?_, ?_⟩
  · simp [tools_endpoint, resolveHours, get_tool_statistics_pos c now h1,
      Except.mapError]
  · simp [tools_endpoint, resolveHours, get_tool_statistics_pos c now h2,
      Except.mapError]
  · exact windowEvents_length_mono c now (le_of_lt h12)

/-- A sample successful event at time 0, used by concrete instantiations
of the windowing theorems. -/
def sampleOkEvent : ToolCallEvent :=
  { tool_name := "get_basic_info", user_id := some "u1", request_id := "r1",
    started_at := 0, duration_ms := 5, success := true, error_message := none }

/-- A one-event collector, used by concrete instantiations. -/
def sampleCollector : MetricsCollector :=
  { tool_calls := [sampleOkEvent], performance := [] }

/-- Claim C2 witness: one event at time 0, queried at `now = 0` with
windows 1 and 2. -/
theorem tools_window_monotone_witness :
    0 < (1 : Int) ∧ (1 : Int) < 2 ∧
    ∃ r1 r2, tools_endpoint true sampleCollector 0 (some 1) = .ok r1 ∧
      tools_endpoint true sampleCollector 0 (some 2) = .ok r2 ∧
      r1.total_calls ≤ r2.total_calls :=
  ⟨by decide, by decide,
    tools_window_monotone sampleCollector 0 1 2 (by decide) (by decide)⟩

/-- Claim C4: `get_tool_statistics` rejects every non-positive `hours`
with a validation failure and, for positive `hours`, returns the
aggregate computed over exactly the events with
`started_at >= now - hours`. -/
theorem tool_statistics_hours_validation (c : MetricsCollector) (now hours : Int) :
    (hours ≤ 0 → get_tool_statistics c now hours
        = .error "ValidationError: hours must be positive") ∧
    (0 < hours → get_tool_statistics c now hours
        = .ok (toolStatisticsOf
            (c.tool_calls.filter (fun e => now - hours ≤ e.started_at)) hours)) := by
  constructor
  · intro h
    simp [get_tool_statistics, h]
  · intro h
    exact get_tool_statistics_pos c now h

/-- Claim C4 witness: `hours = -1` is rejected, `hours = 2` is answered. -/
theorem tool_statistics_hours_validation_witness :
    ((-1 : Int) ≤ 0 ∧ get_tool_statistics emptyCollector 0 (-1)
        = .error "ValidationError: hours must be positive") ∧
    (0 < (2 : Int) ∧ get_tool_statistics emptyCollector 0 2
        = .ok (toolStatisticsOf [] 2)) :=
  ⟨⟨by decide, (tool_statistics_hours_validation emptyCollector 0 (-1)).1 (by decide)⟩,
   ⟨by decide, (tool_statistics_hours_validation emptyCollector 0 2).2 (by decide)⟩⟩

/-- `eventWellFormed` decides exactly the spec's two admissible shapes. -/
lemma eventWellFormed_iff (e : ToolCallEvent) :
    eventWellFormed e = true ↔
      (e.success = true ∧ e.error_message = none) ∨
      (e.success = false ∧ ∃ m, e.error_message = some m ∧ m ≠ "") := by
  rcases e with ⟨tn, uid, rid, st, dur, succ, em⟩
  cases succ <;> cases em <;> simp [eventWellFormed]

/-- One well-formed mutation keeps all stored events well-formed. -/
lemma applyOp_preserves_wf (c : MetricsCollector) (op : CollectorOp)
    (hc : ∀ e ∈ c.tool_calls, eventWellFormed e = true)
    (hop : opWellFormed op = true) :
    ∀ e ∈ (applyOp c op).tool_calls, eventWellFormed e = true := by
  cases op with
  | record ev =>
      intro e he
      simp only [applyOp, record_tool_call, List.mem_append,
        List.mem_singleton] at he
      rcases he with he | he
      · exact hc e he
      · subst he; exact hop
  | recordPerf p =>
      intro e he
      exact hc e he
  | clear now hours =>
      intro e he
      simp only [applyOp, clear_old_metrics, List.mem_filter] at he
      exact hc e he.1

/-- A history of well-formed mutations keeps all stored events
well-formed, from any collector whose events are well-formed. -/
lemma foldl_applyOp_wf (ops : List CollectorOp) (c : MetricsCollector)
    (hc : ∀ e ∈ c.tool_calls, eventWellFormed e = true)
    (hops : ∀ op ∈ ops, opWellFormed op = true) :
    ∀ e ∈ (ops.foldl applyOp c).tool_calls, eventWellFormed e = true := by
  induction ops generalizing c with
  | nil => simpa using hc
  | cons op rest ih =>
      simp only [List.foldl_cons]
      exact ih (applyOp c op)
        (applyOp_preserves_wf c op hc (hops op (by simp)))
        (fun o ho => hops o (by simp [ho]))

/-- Claim C3: after any history of mutations whose recorded events respect
the producer contract (§4.2), every stored `ToolCallEvent` satisfies
exactly one of the two shapes: success with no message, or failure with a
non-empty message — the shapes are mutually exclusive since `success`
cannot be both `true` and `false`. -/
theorem stored_events_invariant (ops : List CollectorOp)
    (hops : ∀ op ∈ ops, opWellFormed op = true) :
    ∀ e ∈ (applyOps ops).tool_calls,
      (e.success = true ∧ e.error_message = none) ∨
      (e.success = false ∧ ∃ m, e.error_message = some m ∧ m ≠ "") :=
  fun e he => (eventWellFormed_iff e).1
    (foldl_applyOp_wf ops emptyCollector (by simp [emptyCollector]) hops e he)

/-- A sample failing event at time 0. -/
def sampleFailEvent : ToolCallEvent :=
  { tool_name := "search_projects", user_id := some "u2", request_id := "r2",
    started_at := 0, duration_ms := 7, success := false,
    error_message := some "timeout" }

/-- Claim C3 witness: a concrete history of two recordings and a cleanup. -/
theorem stored_events_invariant_witness :
    (∀ op ∈ [CollectorOp.record sampleOkEvent, CollectorOp.record sampleFailEvent,
        CollectorOp.clear 0 1], opWellFormed op = true) ∧
    ∀ e ∈ (applyOps [CollectorOp.record sampleOkEvent,
        CollectorOp.record sampleFailEvent, CollectorOp.clear 0 1]).tool_calls,
      (e.success = true ∧ e.error_message = none) ∨
      (e.success = false ∧ ∃ m, e.error_message = some m ∧ m ≠ "") :=
  ⟨by decide,
    stored_events_invariant
      [CollectorOp.record sampleOkEvent, CollectorOp.record sampleFailEvent,
        CollectorOp.clear 0 1] (by decide)⟩

/-- Claim C8: the instrumentation adapter appends exactly one event on
every exit path (normal return, failure, cancellation), touches nothing
else, passes the operation's outcome through unchanged, and on failure
records `success = false` with the stringified failure as the message. -/
theorem adapter_records_once_and_reraises {α : Type} (c : MetricsCollector)
    (tn : String) (uid : Option String) (rid : String) (st : Int) (dur : Nat)
    (outcome : OpOutcome α) :
    (instrumentToolCall c tn uid rid st dur outcome).1.tool_calls.length
        = c.tool_calls.length + 1 ∧
    (instrumentToolCall c tn uid rid st dur outcome).1.performance
        = c.performance ∧
    (instrumentToolCall c tn uid rid st dur outcome).2 = outcome ∧
    (∀ msg, outcome = .failure msg →
      (instrumentToolCall c tn uid rid st dur outcome).1.tool_calls
        = c.tool_calls ++
            [{ tool_name := tn, user_id := uid, request_id := rid,
               started_at := st, duration_ms := dur, success := false,
               error_message := some msg }]) := by
  cases outcome <;> simp [instrumentToolCall, record_tool_call]

/-- Claim C8 witness: a failing operation recorded from the empty
collector. -/
theorem adapter_records_once_and_reraises_witness :
    (instrumentToolCall emptyCollector "search_projects" (some "u2") "r2" 0 7
        ((OpOutcome.failure "boom") : OpOutcome Nat)).1.tool_calls
      = [{ tool_name := "search_projects", user_id := some "u2",
           request_id := "r2", started_at := 0, duration_ms := 7,
           success := false, error_message := some "boom" }] :=
  (adapter_records_once_and_reraises emptyCollector "search_projects"
      (some "u2") "r2" 0 7 ((OpOutcome.failure "boom") : OpOutcome Nat)).2.2.2
    "boom" rfl

/-- Claim C9: every query-surface endpoint invoked without valid caller
credentials fails with an authorization error, and the collector state is
untouched — in particular a rejected clear returns the collector
unchanged. -/
theorem unauthenticated_rejected_before_state (c : MetricsCollector)
    (now : Int) (hours : Option Int) (h : Int) :
    tools_endpoint false c now hours = .error .authorization ∧
    users_endpoint false c now hours = .error .authorization ∧
    performance_endpoint false c now hours = .error .authorization ∧
    errors_endpoint false c now hours = .error .authorization ∧
    dashboard_endpoint false c now hours = .error .authorization ∧
    (clear_endpoint false c now h).1 = c ∧
    (clear_endpoint false c now h).2 = .error .authorization :=
  ⟨rfl, rfl, rfl, rfl, rfl, rfl, rfl⟩

/-- Filtering with the same predicate twice filters once. -/
lemma filter_self_idem {α : Type} (p : α → Bool) (l : List α) :
    (l.filter p).filter p = l.filter p := by
  rw [List.filter_filter]
  exact List.filter_congr (fun a _ => Bool.and_self (p a))

/-- Claim C6 counterexample: the claim quantifies over every collector
state, but on the empty log the first `clear_old_metrics(H)` already
removes 0 records, not a non-zero count. -/
theorem clear_twice_counterexample :
    ¬ (0 < (clear_old_metrics emptyCollector 0 1).2 ∧
       (clear_old_metrics (clear_old_metrics emptyCollector 0 1).1 0 1).2 = 0) := by
  decide

/-- Claim C6 amended: calling `clear_old_metrics(H)` twice in a row with
no intervening recording always returns 0 from the second call, and the
first call returns a non-zero count whenever at least one stored event is
older than the cutoff (the claim's unconditional "non-zero first count"
fails on a log with nothing to remove). -/
theorem clear_twice_amended (c : MetricsCollector) (now H : Int) :
    (clear_old_metrics (clear_old_metrics c now H).1 now H).2 = 0 ∧
    ((∃ e ∈ c.tool_calls, e.started_at < now - H) →
      0 < (clear_old_metrics c now H).2) := by
  constructor
  · simp [clear_old_metrics, filter_self_idem]
  · rintro ⟨e, he, holder⟩
    have hlt : ((c.tool_calls.filter
        (fun e => decide (now - H ≤ e.started_at))).length < c.tool_calls.length) := by
      rw [← List.countP_eq_length_filter]
      have hle := List.countP_le_length
        (l := c.tool_calls) (p := fun e => decide (now - H ≤ e.started_at))
      rcases Nat.lt_or_ge ((c.tool_calls.countP
          (fun e => decide (now - H ≤ e.started_at)))) c.tool_calls.length with h | h
      · exact h
      · exfalso
        have heq : (c.tool_calls.countP (fun e => decide (now - H ≤ e.started_at)))
            = c.tool_calls.length := le_antisymm hle h
        have := (List.countP_eq_length).1 heq e he
        simp only [decide_eq_true_eq] at this
        omega
    simp only [clear_old_metrics]
    omega

/-- Claim C6 witness (amended form): one event at time 0, cleared at
`now = 10` with `H = 1`. -/
theorem clear_twice_amended_witness :
    ((∃ e ∈ sampleCollector.tool_calls, e.started_at < 10 - 1) ∧
      0 < (clear_old_metrics sampleCollector 10 1).2) ∧
    (clear_old_metrics (clear_old_metrics sampleCollector 10 1).1 10 1).2 = 0 :=
  ⟨⟨by decide, (clear_twice_amended sampleCollector 10 1).2 (by decide)⟩,
    (clear_twice_amended sampleCollector 10 1).1⟩

/-- Claim C7: after `clear_old_metrics(0)` at `now` — which removes every
event, all of which began strictly before `now` — each of the four
statistics queries over any positive window answers `ok` with the
all-zero aggregate structure (every key present, no error). -/
theorem clear_zero_then_all_queries_zero (c : MetricsCollector) (now H : Int)
    (hH : 0 < H)
    (hev : ∀ e ∈ c.tool_calls, e.started_at < now)
    (hps : ∀ p ∈ c.performance, p.started_at < now) :
    get_tool_statistics (clear_old_metrics c now 0).1 now H
        = .ok { period_hours := H, total_calls := 0, per_tool := [] } ∧
    get_user_statistics (clear_old_metrics c now 0).1 now H
        = .ok { period_hours := H, unique_users := 0, per_user := [] } ∧
    get_performance_summary (clear_old_metrics c now 0).1 now H
        = .ok { period_hours := H, per_operation := [] } ∧
    get_error_summary (clear_old_metrics c now 0).1 now H
        = .ok { period_hours := H, total_errors := 0, per_tool := [] } := by
  have hc1 : (clear_old_metrics c now 0).1.tool_calls = [] := by
    simp only [clear_old_metrics, List.filter_eq_nil_iff, decide_eq_true_eq]
    intro e he
    have := hev e he
    omega
  have hp1 : (clear_old_metrics c now 0).1.performance = [] := by
    simp only [clear_old_metrics, List.filter_eq_nil_iff, decide_eq_true_eq]
    intro p hp
    have := hps p hp
    omega
  have hw : windowEvents (clear_old_metrics c now 0).1 now H = [] := by
    simp [windowEvents, hc1]
  have hws : windowSamples (clear_old_metrics c now 0).1 now H = [] := by
    simp [windowSamples, hp1]
  have hle : ¬ (H ≤ 0) := not_le.mpr hH
  refine ⟨?_, ?_, ?_, ?_⟩
  · simp [get_tool_statistics, hle, hw, toolStatisticsOf]
  · simp [get_user_statistics, hle, hw, userStatisticsOf]
  · simp [get_performance_summary, hle, hws, performanceSummaryOf]
  · simp [get_error_summary, hle, hw, errorSummaryOf]

/-- Claim C7 witness: the one-event collector cleared at `now = 5`,
queried over a 24-hour window. -/
theorem clear_zero_then_all_queries_zero_witness :
    get_tool_statistics (clear_old_metrics sampleCollector 5 0).1 5 24
      = .ok { period_hours := 24, total_calls := 0, per_tool := [] } :=
  (clear_zero_then_all_queries_zero sampleCollector 5 24
    (by decide) (by decide) (by decide)).1

/-- `dedupKeepFirstAux` returns a sublist of its input. -/
lemma dedupKeepFirstAux_sublist (seen l : List String) :
    List.Sublist (dedupKeepFirstAux seen l) l := by
  induction l generalizing seen with
  | nil => simp [dedupKeepFirstAux]
  | cons m rest ih =>
      by_cases hm : m ∈ seen
      · simp only [dedupKeepFirstAux, if_pos hm]
        exact List.Sublist.cons m (ih seen)
      · simp only [dedupKeepFirstAux, if_neg hm]
        exact List.Sublist.cons₂ m (ih (m :: seen))

/-- Membership in `dedupKeepFirstAux`: in the input and not yet seen. -/
lemma mem_dedupKeepFirstAux (seen l : List String) (a : String) :
    a ∈ dedupKeepFirstAux seen l ↔ a ∈ l ∧ a ∉ seen := by
  induction l generalizing seen with
  | nil => simp [dedupKeepFirstAux]
  | cons m rest ih =>
      by_cases hm : m ∈ seen
      · rw [dedupKeepFirstAux, if_pos hm, ih]
        by_cases ham : a = m
        · subst ham
          simp [hm]
        · simp [ham]
      · rw [dedupKeepFirstAux, if_neg hm]
        simp only [List.mem_cons, ih, List.mem_cons, not_or]
        by_cases ham : a = m
        · subst ham
          simp [hm]
        · simp [ham]

/-- `dedupKeepFirstAux` has no duplicates. -/
lemma nodup_dedupKeepFirstAux (seen l : List String) :
    (dedupKeepFirstAux seen l).Nodup := by
  induction l generalizing seen with
  | nil => simp [dedupKeepFirstAux]
  | cons m rest ih =>
      by_cases hm : m ∈ seen
      · simpa only [dedupKeepFirstAux, if_pos hm] using ih seen
      · rw [dedupKeepFirstAux, if_neg hm]
        refine List.nodup_cons.2 ⟨?_, ih (m :: seen)⟩
        intro hmem
        rw [mem_dedupKeepFirstAux] at hmem
        exact hmem.2 (List.mem_cons_self m seen)

/-- `dedupKeepFirstAux` lists elements in strictly increasing order of
their first occurrence in the input. -/
lemma pairwise_firstIdx_dedupKeepFirstAux (l seen : List String) :
    (dedupKeepFirstAux seen l).Pairwise
      (fun a b => firstIdx l a < firstIdx l b) := by
  induction l generalizing seen with
  | nil => simp [dedupKeepFirstAux]
  | cons m rest ih =>
      by_cases hm : m ∈ seen
      · rw [dedupKeepFirstAux, if_pos hm]
        refine List.Pairwise.imp_of_mem ?_ (ih seen)
        intro a b ha hb hab
        rw [mem_dedupKeepFirstAux] at ha hb
        have hma : ¬ (m = a) := fun h => ha.2 (h ▸ hm)
        have hmb : ¬ (m = b) := fun h => hb.2 (h ▸ hm)
        simp only [firstIdx, if_neg hma, if_neg hmb]
        omega
      · rw [dedupKeepFirstAux, if_neg hm]
        refine List.pairwise_cons.2 ⟨?_, ?_⟩
        · intro b hb
          rw [mem_dedupKeepFirstAux] at hb
          have hmb : ¬ (m = b) :=
            fun h => hb.2 (List.mem_cons.2 (Or.inl h.symm))
          simp only [firstIdx, if_neg hmb, eq_self_iff_true, if_true]
          omega
        · refine List.Pairwise.imp_of_mem ?_ (ih (m :: seen))
          intro a b ha hb hab
          rw [mem_dedupKeepFirstAux] at ha hb
          have hma : ¬ (m = a) :=
            fun h => ha.2 (List.mem_cons.2 (Or.inl h.symm))
          have hmb : ¬ (m = b) :=
            fun h => hb.2 (List.mem_cons.2 (Or.inl h.symm))
          simp only [firstIdx, if_neg hma, if_neg hmb]
          omega

/-- The message sampling rule: at most `N_SAMPLES` messages, no
duplicates, an initial segment of the newest-first distinct message list,
every sampled message drawn from the underlying message list, every
message represented in the distinct list before truncation, samples
ordered newest first (strictly increasing recency rank), and every
distinct message left unsampled older than every sampled one. -/
lemma sampleMessages_spec (msgs : List String) :
    (sampleMessages msgs).length ≤ N_SAMPLES ∧
    (sampleMessages msgs).Nodup ∧
    (∃ dropped, sampleMessages msgs ++ dropped = dedupKeepFirst msgs.reverse) ∧
    (∀ m ∈ sampleMessages msgs, m ∈ msgs) ∧
    (∀ m ∈ msgs, m ∈ dedupKeepFirst msgs.reverse) ∧
    (sampleMessages msgs).Pairwise
      (fun a b => recencyRank msgs a < recencyRank msgs b) ∧
    (∀ a ∈ sampleMessages msgs, ∀ b ∈ dedupKeepFirst msgs.reverse,
      b ∉ sampleMessages msgs → recencyRank msgs a < recencyRank msgs b) := by
  have hD : (dedupKeepFirst msgs.reverse).Pairwise
      (fun a b => recencyRank msgs a < recencyRank msgs b) :=
    pairwise_firstIdx_dedupKeepFirstAux msgs.reverse []
  have hsplit : sampleMessages msgs ++ (dedupKeepFirst msgs.reverse).drop N_SAMPLES
      = dedupKeepFirst msgs.reverse := List.take_append_drop _ _
  refine ⟨List.length_take_le _ _,
    (List.take_sublist _ _).nodup (nodup_dedupKeepFirstAux [] _),
    ⟨(dedupKeepFirst msgs.reverse).drop N_SAMPLES, hsplit⟩, ?_, ?_, ?_, ?_⟩
  · intro m hm
    have h1 : m ∈ dedupKeepFirst msgs.reverse := List.mem_of_mem_take hm
    rw [dedupKeepFirst, mem_dedupKeepFirstAux] at h1
    exact List.mem_reverse.1 h1.1
  · intro m hm
    rw [dedupKeepFirst, mem_dedupKeepFirstAux]
    exact ⟨List.mem_reverse.2 hm, by simp⟩
  · exact List.Pairwise.sublist (List.take_sublist _ _) hD
  · intro a ha b hb hbs
    have hsp : (sampleMessages msgs ++
        (dedupKeepFirst msgs.reverse).drop N_SAMPLES).Pairwise
          (fun a b => recencyRank msgs a < recencyRank msgs b) := by
      rw [hsplit]; exact hD
    have hbd : b ∈ (dedupKeepFirst msgs.reverse).drop N_SAMPLES := by
      rw [← hsplit] at hb
      rcases List.mem_append.1 hb with h | h
      · exact absurd h hbs
      · exact h
    exact (List.pairwise_append.1 hsp).2.2 a ha b hbd

/-- Claim C5: every per-tool entry of `get_error_summary` carries at most
`N_SAMPLES = 5` pairwise-distinct sampled messages forming an initial
segment of the newest-first distinct-message list of that tool in the
window; each sampled message is one of the tool's recorded error
messages and every recorded message reaches the distinct list before
truncation; the samples are ordered newest first (strictly increasing
recency rank, where rank 0 is the latest message of the window); and
every distinct message that was not sampled is older than every sampled
one — exceeding the bound drops the oldest messages, never the newest. -/
theorem error_summary_sample_messages (c : MetricsCollector) (now hours : Int)
    (t : String) (entry : ErrorToolStats) (r : ErrorSummaryResult)
    (hr : get_error_summary c now hours = .ok r)
    (ht : (t, entry) ∈ r.per_tool) :
    entry.sample_messages.length ≤ N_SAMPLES ∧
    entry.sample_messages.Nodup ∧
    (∃ dropped, entry.sample_messages ++ dropped
        = dedupKeepFirst (errorMessagesFor (windowEvents c now hours) t).reverse) ∧
    (∀ m ∈ entry.sample_messages,
      m ∈ errorMessagesFor (windowEvents c now hours) t) ∧
    (∀ m ∈ errorMessagesFor (windowEvents c now hours) t,
      m ∈ dedupKeepFirst (errorMessagesFor (windowEvents c now hours) t).reverse) ∧
    entry.sample_messages.Pairwise (fun a b =>
      recencyRank (errorMessagesFor (windowEvents c now hours) t) a
        < recencyRank (errorMessagesFor (windowEvents c now hours) t) b) ∧
    (∀ a ∈ entry.sample_messages,
      ∀ b ∈ dedupKeepFirst (errorMessagesFor (windowEvents c now hours) t).reverse,
        b ∉ entry.sample_messages →
          recencyRank (errorMessagesFor (windowEvents c now hours) t) a
            < recencyRank (errorMessagesFor (windowEvents c now hours) t) b) := by
  by_cases hpos : hours ≤ 0
  · simp [get_error_summary, hpos] at hr
  · simp only [get_error_summary] at hr
    rw [if_neg hpos] at hr
    simp only [Except.ok.injEq] at hr
    subst hr
    have hmsgs : entry.sample_messages
        = sampleMessages (errorMessagesFor (windowEvents c now hours) t) := by
      simp only [errorSummaryOf, List.mem_map] at ht
      obtain ⟨t0, _, heq⟩ := ht
      have h1 := congrArg Prod.fst heq
      have h2 := congrArg Prod.snd heq
      simp only at h1 h2
      subst h1
      rw [← h2]
    rw [hmsgs]
    exact sampleMessages_spec (errorMessagesFor (windowEvents c now hours) t)

/-- A later failing event of the same tool with a different message. -/
def sampleFailEvent2 : ToolCallEvent :=
  { tool_name := "search_projects", user_id := some "u2", request_id := "r3",
    started_at := 1, duration_ms := 3, success := false,
    error_message := some "boom" }

/-- A collector holding two failing calls ("timeout" then "boom"), for
concrete instantiations. -/
def failCollector : MetricsCollector :=
  { tool_calls := [sampleFailEvent, sampleFailEvent2], performance := [] }

/-- Claim C5 witness: with chronological messages
`["timeout", "boom"]` the sampled list is `["boom", "timeout"]` — newest
first, in strictly increasing recency rank. -/
theorem error_summary_sample_messages_witness :
    (get_error_summary failCollector 1 2
        = .ok { period_hours := 2, total_errors := 2,
                per_tool := [("search_projects",
                  { count := 2, sample_messages := ["boom", "timeout"] })] }) ∧
    (["boom", "timeout"] : List String).Pairwise (fun a b =>
      recencyRank (errorMessagesFor (windowEvents failCollector 1 2)
          "search_projects") a
        < recencyRank (errorMessagesFor (windowEvents failCollector 1 2)
            "search_projects") b) :=
  ⟨rfl,
    (error_summary_sample_messages failCollector 1 2 "search_projects"
      { count := 2, sample_messages := ["boom", "timeout"] }
      { period_hours := 2, total_errors := 2,
        per_tool := [("search_projects",
          { count := 2, sample_messages := ["boom", "timeout"] })] }
      rfl (by decide)).2.2.2.2.2.1⟩

end Vocalaa
